import Mathlib

/-!
Shallow embedding of the CRUD/consistency core of `trial_mongo.py`
(`DatabaseManager` over the `users` and `posts` MongoDB collections).

Documents are modelled as Lean structures, the two collections as lists of
documents, and each `DatabaseManager` method as a pure function from the
store state (`DB`) to a result paired with the new store state.  MongoDB
specifics that the methods rely on are modelled explicitly:

* `ObjectId.is_valid(s)` for a string argument holds exactly when the string
  is 24 hexadecimal characters; `ObjectId(s)` is case-insensitive on the hex
  digits (the id is stored as bytes, rendered lowercase), so a decoded id is
  modelled as the lowercased hex string.
* `update_one`/`delete_one` act on the first matching document only;
  `update_many`/`delete_many` act on all matching documents.
* `modified_count` counts documents whose stored content actually changed
  (a `$set` writing the already-stored values modifies nothing).
* `$set` creates a field that is absent from the document and overwrites it
  when present; the denormalized account fields that `update_user` may write
  onto posts are therefore `Option`-valued in `PostDoc` (absent = `none`).
* a `sort("created_at", -1)` cursor returns the matches ordered by
  `created_at` descending; this is modelled with `List.insertionSort`.
* driver/server failures reach the code as exceptions; every method wraps its
  body in `try/except` and converts any exception into `None`/`False`/`[]`.
  Where a claim depends on that channel, an explicit `driverFail` flag feeds
  the generic-failure branch.
-/

namespace TrialMongo

/-- A hexadecimal digit, as accepted by `bytes.fromhex` inside `ObjectId`. -/
def isHexChar (c : Char) : Bool :=
  c.isDigit || ('a' ≤ c && c ≤ 'f') || ('A' ≤ c && c ≤ 'F')

/-- `ObjectId.is_valid` on a string: length 24 and all characters hex.
(Stated over the character list `s.data`, which is definitionally the
string's content.) -/
def objectIdIsValid (s : String) : Bool :=
  s.data.length == 24 && s.data.all isHexChar

/-- Character-wise lowercasing, the canonical hex rendering used by
`str(ObjectId)`; `ObjectId` equality is case-insensitive on the input hex. -/
def lowerStr (s : String) : String :=
  ⟨s.data.map Char.toLower⟩

/-- A value stored in an id-valued document field: either a decoded
`ObjectId` (kept as its canonical lowercase hex rendering) or a raw string
stored by passthrough. -/
inductive BsonId where
  | oid : String → BsonId
  | raw : String → BsonId
deriving DecidableEq, Repr

/-- The `if ObjectId.is_valid(x): ObjectId(x) else: x` coercion that every
`DatabaseManager` method applies to an externally supplied identifier
string. -/
def normalizeId (s : String) : BsonId :=
  if objectIdIsValid s then BsonId.oid (lowerStr s) else BsonId.raw s

/-- A document of the `users` collection. -/
structure UserDoc where
  _id : BsonId
  name : String
  email : String
  age : Int
  created_at : Nat
deriving DecidableEq, Repr

/-- A document of the `posts` collection.  `name`, `email` and `age` are the
denormalized account fields that `update_user` may `$set` onto a post; they
are absent (`none`) on a freshly created post. -/
structure PostDoc where
  _id : BsonId
  user_id : BsonId
  title : String
  content : String
  created_at : Nat
  name : Option String
  email : Option String
  age : Option Int
deriving DecidableEq, Repr

/-- The store state: the two collections of `exampledb`. -/
structure DB where
  users : List UserDoc
  posts : List PostDoc
deriving DecidableEq, Repr

/-- The sparse field set accepted by `update_user` (keyword arguments
`name`, `email`, `age`, each defaulting to `None`). -/
structure UserFields where
  name : Option String
  email : Option String
  age : Option Int
deriving DecidableEq, Repr

/-- `update_fields` is the empty dict: no keyword argument was provided. -/
def UserFields.isEmpty (f : UserFields) : Bool :=
  f.name.isNone && f.email.isNone && f.age.isNone

/-- The sparse field set accepted by `update_post` (keyword arguments
`title`, `content`). -/
structure PostFields where
  title : Option String
  content : Option String
deriving DecidableEq, Repr

/-- `update_fields` is the empty dict in `update_post`. -/
def PostFields.isEmpty (f : PostFields) : Bool :=
  f.title.isNone && f.content.isNone

/-- Effect of `{"$set": update_fields}` on a user document: each provided
field is overwritten, the rest are untouched. -/
def applyUserFields (f : UserFields) (u : UserDoc) : UserDoc :=
  { u with
    name := f.name.getD u.name
    email := f.email.getD u.email
    age := f.age.getD u.age }

/-- Effect of `{"$set": update_fields}` on a post document in
`update_user`'s propagation step: each provided denormalized field is
created or overwritten, the rest of the document is untouched. -/
def setUserFieldsOnPost (f : UserFields) (p : PostDoc) : PostDoc :=
  { p with
    name := match f.name with | some v => some v | none => p.name
    email := match f.email with | some v => some v | none => p.email
    age := match f.age with | some v => some v | none => p.age }

/-- Effect of `{"$set": update_fields}` on a post document in
`update_post`. -/
def applyPostFields (f : PostFields) (p : PostDoc) : PostDoc :=
  { p with
    title := f.title.getD p.title
    content := f.content.getD p.content }

/-- `update_one` on the users collection: rewrite the first document
matching the id filter, report whether its stored content changed
(`modified_count > 0`). -/
def updateFirstUser (uid : BsonId) (f : UserFields) :
    List UserDoc → Bool × List UserDoc
  | [] => (false, [])
  | u :: rest =>
    if u._id = uid then
      let u2 := applyUserFields f u
      (decide (u2 ≠ u), u2 :: rest)
    else
      let r := updateFirstUser uid f rest
      (r.1, u :: r.2)

/-- `update_one` on the posts collection, with `modified_count > 0`. -/
def updateFirstPost (pid : BsonId) (f : PostFields) :
    List PostDoc → Bool × List PostDoc
  | [] => (false, [])
  | p :: rest =>
    if p._id = pid then
      let p2 := applyPostFields f p
      (decide (p2 ≠ p), p2 :: rest)
    else
      let r := updateFirstPost pid f rest
      (r.1, p :: r.2)

/-- `delete_one` on the users collection: remove the first document
matching the id filter, report `deleted_count > 0`. -/
def deleteFirstUser (uid : BsonId) : List UserDoc → Bool × List UserDoc
  | [] => (false, [])
  | u :: rest =>
    if u._id = uid then (true, rest)
    else
      let r := deleteFirstUser uid rest
      (r.1, u :: r.2)

/-- `delete_one` on the posts collection. -/
def deleteFirstPost (pid : BsonId) : List PostDoc → Bool × List PostDoc
  | [] => (false, [])
  | p :: rest =>
    if p._id = pid then (true, rest)
    else
      let r := deleteFirstPost pid rest
      (r.1, p :: r.2)

/-- `DatabaseManager.create_user`.  `freshId` is the hex rendering of the
ObjectId the driver generates for the insert and `now` the
`datetime.now()` timestamp.  `insert_one` raises `DuplicateKeyError` when
the unique index on `email` is violated, and may raise a transport error
(`driverFail`); the `except Exception` branch prints and returns `None`
in either case, so the caller observes `none` for both failures. -/
def create_user (db : DB) (name email : String) (age : Int)
    (freshId : String) (now : Nat) (driverFail : Bool) : Option String × DB :=
  if driverFail || db.users.any (fun u => u.email == email) then
    (none, db)
  else
    (some freshId,
     { db with users := db.users ++ [⟨BsonId.oid freshId, name, email, age, now⟩] })

/-- `DatabaseManager.create_post`: the owner id is passed through the
`ObjectId.is_valid` coercion and stored as given; no check that it names an
existing user. -/
def create_post (db : DB) (user_id title content : String)
    (freshId : String) (now : Nat) : Option String × DB :=
  (some freshId,
   { db with posts := db.posts ++
      [⟨BsonId.oid freshId, normalizeId user_id, title, content, now, none, none, none⟩] })

/-- Order of a `sort("created_at", -1)` cursor: newest first. -/
def postNewerFirst (a b : PostDoc) : Prop :=
  b.created_at ≤ a.created_at

instance : DecidableRel postNewerFirst := fun a b =>
  inferInstanceAs (Decidable (b.created_at ≤ a.created_at))

instance : IsTotal PostDoc postNewerFirst :=
  ⟨fun a b => Nat.le_total b.created_at a.created_at⟩

instance : IsTrans PostDoc postNewerFirst :=
  ⟨fun _ _ _ hab hbc => Nat.le_trans hbc hab⟩

/-- `DatabaseManager.get_user_posts`: coerce the id, `find` the posts whose
`user_id` equals it, sorted by `created_at` descending.  (The cosmetic
conversion of the returned ids to display strings is omitted: it renames no
field used by any property and affects neither selection nor order.) -/
def get_user_posts (db : DB) (user_id : String) : List PostDoc :=
  List.insertionSort postNewerFirst
    (db.posts.filter (fun p => p.user_id == normalizeId user_id))

/-- The `find_one({"_id": key})` lookup on the users collection (the read
used by the API layer's get-user route and the account-side read-back). -/
def find_one_user (db : DB) (k : BsonId) : Option UserDoc :=
  db.users.find? (fun u => u._id == k)

/-- `DatabaseManager.update_user`.  Builds `update_fields` from the provided
keyword arguments; when non-empty, first `update_many`-propagates them onto
every post whose `user_id` matches, then `update_one`-writes them to the
user and returns `modified_count > 0`.  When `update_fields` is empty the
posts step is skipped and `update_one` is still issued with an empty
`$set`, which the store rejects; the `except` branch catches the error and
returns `False` with nothing modified. -/
def update_user (db : DB) (user_id : String) (f : UserFields) : Bool × DB :=
  let uid := normalizeId user_id
  if f.isEmpty then
    (false, db)
  else
    let posts2 := db.posts.map
      (fun p => if p.user_id == uid then setUserFieldsOnPost f p else p)
    let r := updateFirstUser uid f db.users
    (r.1, ⟨r.2, posts2⟩)

/-- `DatabaseManager.update_post`.  When `update_fields` is non-empty,
`update_one` the post and return `modified_count > 0` (`some b`); when it is
empty no store call is made and control falls off the end of the `try`
block, so Python returns `None` (`none`). -/
def update_post (db : DB) (post_id : String) (f : PostFields) :
    Option Bool × DB :=
  let pid := normalizeId post_id
  if f.isEmpty then
    (none, db)
  else
    let r := updateFirstPost pid f db.posts
    (some r.1, { db with posts := r.2 })

/-- `DatabaseManager.delete_user`: `delete_many` every post whose `user_id`
matches the coerced id (unconditionally), then `delete_one` the user and
return `deleted_count > 0`. -/
def delete_user (db : DB) (user_id : String) : Bool × DB :=
  let uid := normalizeId user_id
  let posts2 := db.posts.filter (fun p => !(p.user_id == uid))
  let r := deleteFirstUser uid db.users
  (r.1, ⟨r.2, posts2⟩)

/-- `DatabaseManager.delete_post`: `delete_one` the post, return
`deleted_count > 0`. -/
def delete_post (db : DB) (post_id : String) : Bool × DB :=
  let pid := normalizeId post_id
  let r := deleteFirstPost pid db.posts
  (r.1, { db with posts := r.2 })

/-! Concrete store states used to exercise the operations on closed inputs. -/

/-- A 24-hex id as generated by the driver for a user document. -/
def hexU : String := "aaaaaaaaaaaaaaaaaaaaaaaa"

/-- A 24-hex id for a post document. -/
def hexP : String := "bbbbbbbbbbbbbbbbbbbbbbbb"

/-- A second 24-hex id. -/
def hexQ : String := "cccccccccccccccccccccccc"

/-- An account document. -/
def anaUser : UserDoc := ⟨BsonId.oid hexU, "Ana", "ana@x.com", 30, 0⟩

/-- A post of `anaUser` carrying none of the denormalized account fields,
exactly as `create_post` stores it. -/
def anaPost : PostDoc :=
  ⟨BsonId.oid hexP, BsonId.oid hexU, "Hi", "Hello", 1, none, none, none⟩

/-- Store holding `anaUser` and the single fresh post `anaPost`. -/
def dbAna : DB := ⟨[anaUser], [anaPost]⟩

/-- A second account document, owner of the email "bea@x.com". -/
def beaUser : UserDoc := ⟨BsonId.oid hexQ, "Bea", "bea@x.com", 25, 0⟩

/-- Store holding only `beaUser`. -/
def dbBea : DB := ⟨[beaUser], []⟩

/-- A post stored with a raw-string owner reference, as `create_post`
stores it when handed the syntactically invalid identifier "abc". -/
def orphanPost : PostDoc :=
  ⟨BsonId.oid hexP, BsonId.raw "abc", "T", "C", 3, none, none, none⟩

/-- Store holding only `orphanPost` and no account at all. -/
def dbOrphan : DB := ⟨[], [orphanPost]⟩

/-- First post of a shared (raw-identified) owner, created at time 1. -/
def postW1 : PostDoc :=
  ⟨BsonId.oid hexP, BsonId.raw "w", "first", "one", 1, none, none, none⟩

/-- Second post of the same owner, created later, at time 2. -/
def postW2 : PostDoc :=
  ⟨BsonId.oid hexQ, BsonId.raw "w", "second", "two", 2, none, none, none⟩

/-- Store holding the two posts of owner "w" in insertion order. -/
def dbW : DB := ⟨[], [postW1, postW2]⟩

/-! Helper lemmas about the store primitives. -/

theorem updateFirstUser_fst_iff (uid : BsonId) (f : UserFields) (l : List UserDoc) :
    (updateFirstUser uid f l).1 = true ↔ (updateFirstUser uid f l).2 ≠ l := by
  induction l with
  | nil => simp [updateFirstUser]
  | cons u rest ih =>
    by_cases h : u._id = uid
    · simp [updateFirstUser, h]
    · simp [updateFirstUser, h, ih]

theorem updateFirstPost_fst_iff (pid : BsonId) (f : PostFields) (l : List PostDoc) :
    (updateFirstPost pid f l).1 = true ↔ (updateFirstPost pid f l).2 ≠ l := by
  induction l with
  | nil => simp [updateFirstPost]
  | cons p rest ih =>
    by_cases h : p._id = pid
    · simp [updateFirstPost, h]
    · simp [updateFirstPost, h, ih]

theorem updateFirstUser_created (uid : BsonId) (f : UserFields) (l : List UserDoc) :
    (updateFirstUser uid f l).2.map UserDoc.created_at = l.map UserDoc.created_at := by
  induction l with
  | nil => rfl
  | cons u rest ih =>
    by_cases h : u._id = uid
    · simp [updateFirstUser, h, applyUserFields]
    · simp [updateFirstUser, h, ih]

theorem updateFirstPost_created (pid : BsonId) (f : PostFields) (l : List PostDoc) :
    (updateFirstPost pid f l).2.map PostDoc.created_at = l.map PostDoc.created_at := by
  induction l with
  | nil => rfl
  | cons p rest ih =>
    by_cases h : p._id = pid
    · simp [updateFirstPost, h, applyPostFields]
    · simp [updateFirstPost, h, ih]

theorem updateFirstUser_of_no_match (uid : BsonId) (f : UserFields) (l : List UserDoc)
    (h : ∀ u ∈ l, u._id ≠ uid) : updateFirstUser uid f l = (false, l) := by
  induction l with
  | nil => rfl
  | cons u rest ih =>
    have h1 : u._id ≠ uid := h u (List.mem_cons_self _ _)
    have h2 : updateFirstUser uid f rest = (false, rest) :=
      ih (fun v hv => h v (List.mem_cons_of_mem _ hv))
    simp [updateFirstUser, h1, h2]

theorem deleteFirstUser_fst (uid : BsonId) (l : List UserDoc) :
    (deleteFirstUser uid l).1 = l.any (fun u => u._id == uid) := by
  induction l with
  | nil => rfl
  | cons u rest ih =>
    by_cases h : u._id = uid
    · simp [deleteFirstUser, h]
    · simp [deleteFirstUser, h, ih]

theorem find?_append_singleton {α : Type} (p : α → Bool) (l : List α) (x : α)
    (h : ∀ y ∈ l, p y = false) :
    (l ++ [x]).find? p = if p x then some x else none := by
  induction l with
  | nil => cases hx : p x <;> simp [List.find?, hx]
  | cons a t ih =>
    have ha : ¬ (p a = true) := by
      rw [h a (List.mem_cons_self _ _)]; exact Bool.false_ne_true
    rw [List.cons_append, List.find?_cons_of_neg _ ha]
    exact ih (fun y hy => h y (List.mem_cons_of_mem _ hy))

theorem updateFirstPost_pointwise (pid : BsonId) (f : PostFields) (l : List PostDoc) :
    List.Forall₂ (fun q p => q = p ∨ (p._id = pid ∧ q = applyPostFields f p))
      (updateFirstPost pid f l).2 l := by
  induction l with
  | nil => exact List.Forall₂.nil
  | cons p rest ih =>
    by_cases h : p._id = pid
    · have hr : (updateFirstPost pid f (p :: rest)).2 = applyPostFields f p :: rest := by
        simp [updateFirstPost, h]
      rw [hr]
      exact List.Forall₂.cons (Or.inr ⟨h, rfl⟩)
        (List.forall₂_same.mpr (fun x _ => Or.inl rfl))
    · have hr : (updateFirstPost pid f (p :: rest)).2 =
          p :: (updateFirstPost pid f rest).2 := by
        simp [updateFirstPost, h]
      rw [hr]
      exact List.Forall₂.cons (Or.inl rfl) ih

theorem map_setUserFields_created (uid : BsonId) (f : UserFields) (l : List PostDoc) :
    (l.map (fun p => if p.user_id == uid then setUserFieldsOnPost f p else p)).map
      PostDoc.created_at = l.map PostDoc.created_at := by
  rw [List.map_map]
  refine List.map_congr_left ?_
  intro p _
  show (if p.user_id == uid then setUserFieldsOnPost f p else p).created_at = p.created_at
  cases hq : p.user_id == uid <;> simp [hq, setUserFieldsOnPost]

theorem update_user_posts_eq (db : DB) (s : String) (f : UserFields)
    (hne : f.isEmpty = false) :
    (update_user db s f).2.posts =
      db.posts.map (fun p => if p.user_id == normalizeId s
        then setUserFieldsOnPost f p else p) := by
  simp [update_user, hne]

/-! Theorems settling the claims. -/

/-- Claim C1 counterexample: the post `anaPost` carries no denormalized
copy of any account field, yet `update_user` on its owner's id does not
leave the post document unchanged — the `$set` creates the `name` field on
it. -/
theorem update_user_no_copy_counterexample :
    (anaPost.name = none ∧ anaPost.email = none ∧ anaPost.age = none) ∧
    (update_user dbAna hexU ⟨some "Anne", none, none⟩).2.posts ≠ [anaPost] := by
  decide

/-- Claim C1 (amended): for every non-empty partial field set,
`update_user` writes the provided fields onto every post whose owner
reference equals the normalized identifier — creating the denormalized
copy where it is absent and overwriting it where present — while posts of
other owners are left unchanged. -/
theorem update_user_propagation_spec (db : DB) (s : String) (f : UserFields)
    (hne : f.isEmpty = false) :
    (update_user db s f).2.posts =
      db.posts.map (fun p => if p.user_id == normalizeId s
        then setUserFieldsOnPost f p else p) ∧
    ∀ p ∈ db.posts, p.user_id ≠ normalizeId s → p ∈ (update_user db s f).2.posts := by
  refine ⟨update_user_posts_eq db s f hne, ?_⟩
  intro p hp hid
  rw [update_user_posts_eq db s f hne]
  refine List.mem_map.mpr ⟨p, hp, ?_⟩
  have hb : (p.user_id == normalizeId s) = false := beq_eq_false_iff_ne.mpr hid
  simp [hb]

/-- Witness for the amended C1 on the concrete store `dbAna`. -/
theorem update_user_propagation_spec_witness :
    (update_user dbAna hexU ⟨some "Anne", none, none⟩).2.posts =
      dbAna.posts.map (fun p => if p.user_id == normalizeId hexU
        then setUserFieldsOnPost ⟨some "Anne", none, none⟩ p else p) :=
  (update_user_propagation_spec dbAna hexU ⟨some "Anne", none, none⟩ (by decide)).1

/-- Claim C2: `delete_user` removes every post whose owner reference
equals the normalized identifier, regardless of whether an account with
that id exists, and returns `true` iff an account document with that id
existed (and was removed); orphan posts of a non-existent account are
still deleted and the call then returns `false`. -/
theorem delete_user_cascade_spec (db : DB) (s : String) :
    (delete_user db s).2.posts =
      db.posts.filter (fun p => !(p.user_id == normalizeId s)) ∧
    ((delete_user db s).1 = true ↔ ∃ u ∈ db.users, u._id = normalizeId s) := by
  refine ⟨rfl, ?_⟩
  show (deleteFirstUser (normalizeId s) db.users).1 = true ↔ _
  rw [deleteFirstUser_fst]
  simp [List.any_eq_true]

/-- Claim C3 counterexample: creating an account with `beaUser`'s email
(a duplicate) and creating an account during a generic driver failure
produce the same caller-visible result `none`; the duplicate-email failure
is not distinguishable from a store error. -/
theorem create_user_failure_counterexample :
    (create_user dbBea "Cal" "bea@x.com" 40 hexU 7 false).1 = none ∧
    (create_user dbBea "Cal" "cal@x.com" 40 hexU 7 true).1 = none ∧
    (create_user dbBea "Cal" "bea@x.com" 40 hexU 7 false).1 =
      (create_user dbBea "Cal" "cal@x.com" 40 hexU 7 true).1 := by
  decide

/-- Claim C3 (amended): `create_user` returns the fresh record id when no
failure occurs and the email is not already stored; on a duplicate email
it returns `none` with the store unchanged — exactly the same outcome as a
generic driver failure, so the caller cannot distinguish the two. -/
theorem create_user_outcome_spec (db : DB) (n e : String) (a : Int)
    (fid : String) (now : Nat) :
    (db.users.any (fun u => u.email == e) = true →
      create_user db n e a fid now false = (none, db) ∧
      create_user db n e a fid now false = create_user db n e a fid now true) ∧
    (db.users.any (fun u => u.email == e) = false →
      create_user db n e a fid now false =
        (some fid, ⟨db.users ++ [⟨BsonId.oid fid, n, e, a, now⟩], db.posts⟩)) := by
  constructor
  · intro h
    constructor <;> simp [create_user, h]
  · intro h
    simp [create_user, h]

/-- Witness for the amended C3: a duplicate email yields `none` with the
store unchanged; a fresh email yields the new id and the appended record. -/
theorem create_user_outcome_spec_witness :
    create_user dbBea "Cal" "bea@x.com" 40 hexU 7 false = (none, dbBea) ∧
    create_user dbBea "Cal" "cal@x.com" 40 hexU 7 false =
      (some hexU,
       ⟨dbBea.users ++ [⟨BsonId.oid hexU, "Cal", "cal@x.com", 40, 7⟩], dbBea.posts⟩) :=
  ⟨((create_user_outcome_spec dbBea "Cal" "bea@x.com" 40 hexU 7).1 (by decide)).1,
   (create_user_outcome_spec dbBea "Cal" "cal@x.com" 40 hexU 7).2 (by decide)⟩

/-- Claim C4: the identifier coercion is total and branch-complete — a
syntactically valid 24-hex string is decoded into the native key (its
canonical lowercase hex form), and any other string is returned unchanged
and used verbatim as the stored owner value, as `create_post` exhibits. -/
theorem identifier_coercion_spec (s : String) :
    (objectIdIsValid s = true → normalizeId s = BsonId.oid (lowerStr s)) ∧
    (objectIdIsValid s = false → normalizeId s = BsonId.raw s) ∧
    ∀ db t c fid now, objectIdIsValid s = false →
      (create_post db s t c fid now).2.posts =
        db.posts ++ [⟨BsonId.oid fid, BsonId.raw s, t, c, now, none, none, none⟩] := by
  refine ⟨fun h => ?_, fun h => ?_, fun db t c fid now h => ?_⟩
  · simp [normalizeId, h]
  · simp [normalizeId, h]
  · simp [create_post, normalizeId, h]

/-- Witness for C4: a valid (mixed-case) id is decoded and lowercased, an
invalid one passes through and is stored verbatim by `create_post`. -/
theorem identifier_coercion_spec_witness :
    normalizeId "AAAAAAAAAAAAAAAAAAAAAAAA" =
      BsonId.oid (lowerStr "AAAAAAAAAAAAAAAAAAAAAAAA") ∧
    normalizeId "abc" = BsonId.raw "abc" ∧
    (create_post dbBea "abc" "T" "C" hexP 3).2.posts =
      dbBea.posts ++ [⟨BsonId.oid hexP, BsonId.raw "abc", "T", "C", 3, none, none, none⟩] :=
  ⟨(identifier_coercion_spec "AAAAAAAAAAAAAAAAAAAAAAAA").1 (by decide),
   (identifier_coercion_spec "abc").2.1 (by decide),
   (identifier_coercion_spec "abc").2.2 dbBea "T" "C" hexP 3 (by decide)⟩

/-- Claim C5 counterexample: with no field supplied, `update_post` makes no
store call and control falls off the end of the `try` block, so the call
returns Python `None` (modelled `none`) — not the boolean `False` the
claim requires. -/
theorem update_post_empty_counterexample :
    (update_post dbAna hexP ⟨none, none⟩).1 = none ∧
    (update_post dbAna hexP ⟨none, none⟩).2 = dbAna ∧
    (none : Option Bool) ≠ some false := by
  decide

/-- Claim C5 (amended): `update_post` writes only the provided fields
among title/content, and only to a post whose key matches the normalized
id — pointwise, every stored post is either left unchanged or, when its
`_id` matches, replaced by the same document with exactly the provided
fields overwritten — and it reports `some true` exactly when the stored
content actually changed; with an empty field set it performs no store
write and returns `None` (`none`), not `False`. -/
theorem update_post_partial_update_spec (db : DB) (s : String) (f : PostFields) :
    (f.isEmpty = true → update_post db s f = (none, db)) ∧
    (f.isEmpty = false →
      ((update_post db s f).1 = some true ↔ (update_post db s f).2.posts ≠ db.posts) ∧
      (update_post db s f).1 ≠ none ∧
      (update_post db s f).2.users = db.users ∧
      List.Forall₂ (fun q p => q = p ∨ (p._id = normalizeId s ∧ q = applyPostFields f p))
        (update_post db s f).2.posts db.posts) := by
  constructor
  · intro h
    simp [update_post, h]
  · intro h
    have hred : update_post db s f =
        (some (updateFirstPost (normalizeId s) f db.posts).1,
          ⟨db.users, (updateFirstPost (normalizeId s) f db.posts).2⟩) := by
      simp [update_post, h]
    rw [hred]
    refine ⟨?_, by simp, rfl, updateFirstPost_pointwise _ _ _⟩
    simp only [Option.some.injEq]
    exact updateFirstPost_fst_iff _ _ _

/-- Witness for the amended C5 on `dbAna`: empty field set is a pure
no-op returning `none`; a title change reports `some true` iff the stored
posts changed, and every stored post is pointwise unchanged or an
`applyPostFields` image of the original. -/
theorem update_post_partial_update_spec_witness :
    update_post dbAna hexP ⟨none, none⟩ = (none, dbAna) ∧
    ((update_post dbAna hexP ⟨some "New", none⟩).1 = some true ↔
      (update_post dbAna hexP ⟨some "New", none⟩).2.posts ≠ dbAna.posts) ∧
    List.Forall₂ (fun q p => q = p ∨
        (p._id = normalizeId hexP ∧ q = applyPostFields ⟨some "New", none⟩ p))
      (update_post dbAna hexP ⟨some "New", none⟩).2.posts dbAna.posts :=
  ⟨(update_post_partial_update_spec dbAna hexP ⟨none, none⟩).1 (by decide),
   ((update_post_partial_update_spec dbAna hexP ⟨some "New", none⟩).2 (by decide)).1,
   ((update_post_partial_update_spec dbAna hexP ⟨some "New", none⟩).2 (by decide)).2.2.2⟩

/-- Claim C6 counterexample: "abc" is syntactically invalid, yet on a
store holding a post whose owner reference is the raw string "abc"
(stored by passthrough), the lookup returns that post rather than the
empty sequence. -/
theorem lookup_invalid_id_counterexample :
    objectIdIsValid "abc" = false ∧ get_user_posts dbOrphan "abc" ≠ [] := by
  decide

/-- Claim C6 (amended): a syntactically invalid identifier never fails —
the coercion degrades to passthrough — and the lookups return
empty/not-found in every store state in which no stored document carries
that raw string as its key or owner reference (raw-string references
stored by passthrough do match it). -/
theorem lookup_invalid_id_spec (s : String) (db : DB)
    (hv : objectIdIsValid s = false)
    (hposts : ∀ p ∈ db.posts, p.user_id ≠ BsonId.raw s)
    (husers : ∀ u ∈ db.users, u._id ≠ BsonId.raw s) :
    get_user_posts db s = [] ∧ find_one_user db (normalizeId s) = none := by
  have hn : normalizeId s = BsonId.raw s := by simp [normalizeId, hv]
  constructor
  · unfold get_user_posts
    rw [hn]
    have hf : db.posts.filter (fun p => p.user_id == BsonId.raw s) = [] := by
      rw [List.filter_eq_nil_iff]
      intro p hp
      simp only [beq_iff_eq]
      exact hposts p hp
    rw [hf]
    rfl
  · rw [hn]
    unfold find_one_user
    rw [List.find?_eq_none]
    intro u hu
    simp only [beq_iff_eq]
    exact husers u hu

/-- Witness for the amended C6: on `dbBea` (no raw-keyed documents) the
invalid identifier "abc" yields an empty post lookup and account
not-found. -/
theorem lookup_invalid_id_spec_witness :
    get_user_posts dbBea "abc" = [] ∧
    find_one_user dbBea (normalizeId "abc") = none :=
  lookup_invalid_id_spec "abc" dbBea (by decide) (by decide) (by decide)

/-- Claim C7: `get_user_posts` returns exactly the posts whose owner
reference equals the normalized identifier, ordered by `created_at`
descending — a post with a strictly larger `created_at` occupies a
strictly smaller index, so of two posts created one after the other the
later one appears first. -/
theorem get_user_posts_order_spec (db : DB) (s : String) :
    (∀ p : PostDoc, p ∈ get_user_posts db s ↔
      p ∈ db.posts ∧ p.user_id = normalizeId s) ∧
    ∀ i j : Fin (get_user_posts db s).length,
      ((get_user_posts db s).get i).created_at <
        ((get_user_posts db s).get j).created_at → (j : Nat) < (i : Nat) := by
  constructor
  · intro p
    unfold get_user_posts
    rw [List.Perm.mem_iff (List.perm_insertionSort _ _), List.mem_filter]
    simp
  · intro i j hij
    have hs : List.Sorted postNewerFirst (get_user_posts db s) :=
      List.sorted_insertionSort _ _
    rcases Nat.lt_trichotomy (i : Nat) (j : Nat) with h | h | h
    · have hr : postNewerFirst ((get_user_posts db s).get i)
          ((get_user_posts db s).get j) := hs.rel_get_of_lt h
      exact absurd hij (Nat.not_lt.mpr hr)
    · have hij2 : i = j := Fin.ext h
      rw [hij2] at hij
      exact absurd hij (lt_irrefl _)
    · exact h

/-- Witness for C7 on `dbW`: the membership characterization holds for
`postW2`, and the pair created at times 1 and 2 comes back newest-first. -/
theorem get_user_posts_order_spec_witness :
    (postW2 ∈ get_user_posts dbW "w" ↔
      postW2 ∈ dbW.posts ∧ postW2.user_id = normalizeId "w") ∧
    (0 : Nat) < 1 :=
  ⟨(get_user_posts_order_spec dbW "w").1 postW2,
   (get_user_posts_order_spec dbW "w").2 ⟨1, by decide⟩ ⟨0, by decide⟩ (by decide)⟩

/-- Claim C8: the account-side write of `update_user` reports `true`
exactly when the stored account content actually changed; with an empty
field set (the store rejects the empty `$set` and the error is caught) the
call returns `false` and the store is left untouched. -/
theorem update_user_account_write_spec (db : DB) (s : String) (f : UserFields) :
    (f.isEmpty = true → update_user db s f = (false, db)) ∧
    (f.isEmpty = false →
      ((update_user db s f).1 = true ↔ (update_user db s f).2.users ≠ db.users)) := by
  constructor
  · intro h
    simp [update_user, h]
  · intro h
    have hred : update_user db s f =
        ((updateFirstUser (normalizeId s) f db.users).1,
          ⟨(updateFirstUser (normalizeId s) f db.users).2,
            db.posts.map (fun p => if p.user_id == normalizeId s
              then setUserFieldsOnPost f p else p)⟩) := by
      simp [update_user, h]
    rw [hred]
    exact updateFirstUser_fst_iff _ _ _

/-- Witness for C8 on `dbAna`: the empty field set is a pure no-op
returning `false`, and a name change reports `true` iff the stored users
changed. -/
theorem update_user_account_write_spec_witness :
    update_user dbAna hexU ⟨none, none, none⟩ = (false, dbAna) ∧
    ((update_user dbAna hexU ⟨some "Anne", none, none⟩).1 = true ↔
      (update_user dbAna hexU ⟨some "Anne", none, none⟩).2.users ≠ dbAna.users) :=
  ⟨(update_user_account_write_spec dbAna hexU ⟨none, none, none⟩).1 (by decide),
   (update_user_account_write_spec dbAna hexU ⟨some "Anne", none, none⟩).2 (by decide)⟩

/-- Claim C9: a successfully created account (unique email, fresh id, no
driver failure) reads back by id with exactly the submitted name, email
and age and with `created_at` equal to the creation time; and no update
operation — the account-side write, the post-side propagation, or a post
update — ever changes any stored `created_at` value. -/
theorem created_account_read_back_spec (db : DB) (n e : String) (a : Int)
    (fid : String) (now : Nat)
    (hemail : ∀ u ∈ db.users, u.email ≠ e)
    (hfresh : ∀ u ∈ db.users, u._id ≠ BsonId.oid fid) :
    find_one_user (create_user db n e a fid now false).2 (BsonId.oid fid) =
      some ⟨BsonId.oid fid, n, e, a, now⟩ ∧
    (∀ db2 s f, (update_user db2 s f).2.users.map UserDoc.created_at =
        db2.users.map UserDoc.created_at ∧
      (update_user db2 s f).2.posts.map PostDoc.created_at =
        db2.posts.map PostDoc.created_at) ∧
    (∀ db2 s f, (update_post db2 s f).2.posts.map PostDoc.created_at =
        db2.posts.map PostDoc.created_at) := by
  refine ⟨?_, fun db2 s f => ⟨?_, ?_⟩, fun db2 s f => ?_⟩
  · have hany : db.users.any (fun u => u.email == e) = false := by
      rw [List.any_eq_false]
      intro u hu
      simp only [beq_iff_eq]
      exact hemail u hu
    have hc : (create_user db n e a fid now false).2 =
        ⟨db.users ++ [⟨BsonId.oid fid, n, e, a, now⟩], db.posts⟩ := by
      simp [create_user, hany]
    have hside : ∀ y ∈ db.users, (fun u => u._id == BsonId.oid fid) y = false := by
      intro u hu
      simp only [beq_eq_false_iff_ne]
      exact hfresh u hu
    have hfind : List.find? (fun u => u._id == BsonId.oid fid)
        (db.users ++ [{ _id := BsonId.oid fid, name := n, email := e,
                        age := a, created_at := now }]) =
        some { _id := BsonId.oid fid, name := n, email := e,
               age := a, created_at := now } := by
      rw [find?_append_singleton _ _ _ hside]
      simp
    rw [hc]
    exact hfind
  · cases h : f.isEmpty with
    | true => simp [update_user, h]
    | false => simp [update_user, h, updateFirstUser_created]
  · cases h : f.isEmpty with
    | true => simp [update_user, h]
    | false =>
      rw [update_user_posts_eq db2 s f h]
      exact map_setUserFields_created (normalizeId s) f db2.posts
  · cases h : f.isEmpty with
    | true => simp [update_post, h]
    | false => simp [update_post, h, updateFirstPost_created]

/-- Witness for C9: creating Ana in the empty store reads back with the
submitted fields and the creation timestamp. -/
theorem created_account_read_back_spec_witness :
    find_one_user (create_user ⟨[], []⟩ "Ana" "ana@x.com" 30 hexU 5 false).2
      (BsonId.oid hexU) = some ⟨BsonId.oid hexU, "Ana", "ana@x.com", 30, 5⟩ :=
  (created_account_read_back_spec ⟨[], []⟩ "Ana" "ana@x.com" 30 hexU 5
    (by decide) (by decide)).1

/-- Claim C10: when no stored account matches the identifier and the field
set is non-empty, `update_user` returns `false`, yet it still writes the
provided fields onto every post whose owner reference equals the
normalized identifier — the failed account update is not atomic with
respect to the post collection. -/
theorem update_user_missing_account_spec (db : DB) (s : String) (f : UserFields)
    (hne : f.isEmpty = false)
    (habs : ∀ u ∈ db.users, u._id ≠ normalizeId s) :
    (update_user db s f).1 = false ∧
    (update_user db s f).2.posts =
      db.posts.map (fun p => if p.user_id == normalizeId s
        then setUserFieldsOnPost f p else p) := by
  have hu := updateFirstUser_of_no_match (normalizeId s) f db.users habs
  refine ⟨?_, update_user_posts_eq db s f hne⟩
  simp [update_user, hne, hu]

/-- Witness for C10 on `dbOrphan`: no account matches "abc", the call
returns `false`, and the orphan post still receives the propagated name. -/
theorem update_user_missing_account_spec_witness :
    (update_user dbOrphan "abc" ⟨some "X", none, none⟩).1 = false ∧
    (update_user dbOrphan "abc" ⟨some "X", none, none⟩).2.posts =
      dbOrphan.posts.map (fun p => if p.user_id == normalizeId "abc"
        then setUserFieldsOnPost ⟨some "X", none, none⟩ p else p) :=
  update_user_missing_account_spec dbOrphan "abc" ⟨some "X", none, none⟩
    (by decide) (by decide)

end TrialMongo
